import Mathlib

/-!
Verification development for a voice-conversation client.

The embedding below models, state-by-state, the audio manager
(`audio_manager.py`: capture/playback flags, the shared playback sample
accumulator `audio_buffer`, the inbound `input_queue` of captured frames and
the outbound `output_queue` of decoded chunks, and the hardware playback
callback) and the realtime client (`ai_client.py`: connection/conversation
flags, `start_conversation`, `_end_conversation`, `cancel_conversation`,
`_check_audio_completion`/`check_buffer`, `_on_message`, `connect`), plus the
settings combiner (`config/settings.py`: `get_combined_instructions`).

Observable side effects (stopping/starting hardware streams, websocket sends,
overlay updates, scheduled timers, error logging) are recorded as an explicit
event list; machine samples are 16-bit signed integers converted to normalized
rational samples (the source divides by 32767.0); strings are lists of
characters.  All state-mutating operations are explicit state transformers, so
each concurrent execution context of the source corresponds to an interleaving
of the step functions defined here.
-/

namespace Pai

/-- Conversion of one wire sample (16-bit signed) to a normalized sample, as
performed by the playback hardware callback: `audio_data.astype(np.float32) /
32767.0`.  Modelled over ℚ (the source arithmetic is exact for the claims
considered, which are about ordering and zero padding, not rounding). -/
def int16ToFloat (x : Int) : ℚ := (x : ℚ) / 32767

/-- Decoding of one enqueued byte chunk into normalized samples
(`np.frombuffer(..., dtype=np.int16)` followed by the float conversion). -/
def decodedChunk (c : List Int) : List ℚ := c.map int16ToFloat

/-- All samples held in the output queue, in enqueue order. -/
def queuedSamples (q : List (List Int)) : List ℚ := (q.map decodedChunk).flatten

/-- Overlay status values (`overlay.update_status` argument). -/
inductive Status where
  | listening
  | processing
  | speaking
  | errorStatus
  deriving DecidableEq

/-- Outbound websocket message kinds sent by the client. -/
inductive OutMsg where
  | sessionUpdate
  | clearInputBuffer
  | appendInputAudio
  | cancelResponse
  deriving DecidableEq

/-- Observable side effects of the modelled operations.  Timer events carry
the delay, in seconds, passed to `threading.Timer`. -/
inductive Ev where
  | stopRec
  | stopPlay
  | openInputStream
  | openOutputStream
  | openWebSocket
  | send (m : OutMsg)
  | overlay (st : Status)
  | hideOverlay
  | timerEndConv (delaySecs : ℚ)
  | timerEndingReset (delaySecs : ℚ)
  | timerRecheck (delaySecs : ℚ)
  | startSendLoop
  | logError
  deriving DecidableEq

/-- Combined state of `AudioManager` and `RealtimeAIClient` (plus the voice
assistant's `conversation_in_progress` flag, which the client resets), and the
environment fact `mic_ok` telling whether the input device can be opened. -/
structure SysState where
  recording : Bool
  playing : Bool
  mic_ok : Bool
  input_queue : List (List Int)
  output_queue : List (List Int)
  audio_buffer : List ℚ
  response_finished : Bool
  transcription_buffer : List (List Int)
  connected : Bool
  conversation_active : Bool
  conversation_ending : Bool
  conversation_in_progress : Bool
  deriving DecidableEq

/-- `AudioManager.start_recording`: returns immediately when already
recording; otherwise sets `recording` and opens the input stream, resetting
`recording` to `False` if the device cannot be opened. -/
def start_recording (s : SysState) : SysState × List Ev :=
  if s.recording then (s, [])
  else if s.mic_ok then ({ s with recording := true }, [Ev.openInputStream])
  else ({ s with recording := false }, [Ev.logError])

/-- `AudioManager.stop_recording`: unconditionally clears `recording` and
closes the stream. -/
def stop_recording (s : SysState) : SysState × List Ev :=
  ({ s with recording := false }, [Ev.stopRec])

/-- `AudioManager.start_playback`: returns immediately when already playing;
otherwise clears the accumulator and the `response_finished` flag under the
buffer lock, drains the output queue, sets `playing` and spawns the playback
thread which opens the output stream. -/
def start_playback (s : SysState) : SysState × List Ev :=
  if s.playing then (s, [])
  else
    ({ s with audio_buffer := [], response_finished := false,
              output_queue := [], playing := true }, [Ev.openOutputStream])

/-- `AudioManager.stop_playback`: clears `playing`, the accumulator and the
output queue. -/
def stop_playback (s : SysState) : SysState × List Ev :=
  ({ s with playing := false, audio_buffer := [], output_queue := [] },
   [Ev.stopPlay])

/-- `AudioManager.play_audio_data`: appends one decoded inbound chunk to the
output queue (arrival order preserved). -/
def play_audio_data (chunk : List Int) (s : SysState) : SysState :=
  { s with output_queue := s.output_queue ++ [chunk] }

/-- `AudioManager.clear_transcription_buffer`. -/
def clear_transcription_buffer (s : SysState) : SysState :=
  { s with transcription_buffer := [] }

/-- The playback hardware callback (`audio_manager.py`, the `audio_callback`
inside `start_playback`): under the buffer lock it drains every queued chunk
into the accumulator, then (a) if the accumulator holds at least `frames`
samples it emits the first `frames` and removes them, (b) else if the
accumulator is non-empty it emits it followed by zero padding and empties it,
(c) else it emits silence.  Returns the emitted samples and the new state. -/
def audio_callback (s : SysState) (frames : Nat) : List ℚ × SysState :=
  let buf := s.audio_buffer ++ queuedSamples s.output_queue
  let s1 := { s with output_queue := [], audio_buffer := buf }
  if frames ≤ buf.length then
    (buf.take frames, { s1 with audio_buffer := buf.drop frames })
  else if 0 < buf.length then
    (buf ++ List.replicate (frames - buf.length) 0,
     { s1 with audio_buffer := [] })
  else
    (List.replicate frames 0, s1)

/-- `RealtimeAIClient._end_conversation`: no-op when `conversation_ending` is
already set; otherwise flips `ending`/`active`, resets the assistant's
in-progress flag, stops recording and playback, hides the overlay and
schedules the 1-second `ending` reset. -/
def end_conversation (s : SysState) : SysState × List Ev :=
  if s.conversation_ending then (s, [])
  else
    let s1 := { s with conversation_ending := true, conversation_active := false,
                       conversation_in_progress := false }
    let r1 := stop_recording s1
    let r2 := stop_playback r1.1
    (r2.1, r1.2 ++ r2.2 ++ [Ev.hideOverlay, Ev.timerEndingReset 1])

/-- `RealtimeAIClient.cancel_conversation`: no-op when no conversation is
active; otherwise flips `ending`/`active`, resets the assistant's in-progress
flag, stops recording and playback, sends `response.cancel`, hides the overlay
and schedules the 1-second `ending` reset. -/
def cancel_conversation (s : SysState) : SysState × List Ev :=
  if !s.conversation_active then (s, [])
  else
    let s1 := { s with conversation_ending := true, conversation_active := false,
                       conversation_in_progress := false }
    let r1 := stop_recording s1
    let r2 := stop_playback r1.1
    (r2.1, r1.2 ++ r2.2 ++
      [Ev.send OutMsg.cancelResponse, Ev.hideOverlay, Ev.timerEndingReset 1])

/-- `RealtimeAIClient.start_conversation`: returns `False` untouched when not
connected; otherwise resets the flags, drains the capture queue, clears the
transcription buffer, sends `input_audio_buffer.clear`, starts recording and
playback and spawns the outbound send loop, returning `True`. -/
def start_conversation (s : SysState) : Bool × SysState × List Ev :=
  if !s.connected then (false, s, [])
  else
    let s1 := { s with conversation_ending := false, conversation_active := true }
    let s2 := { s1 with input_queue := [] }
    let s3 := clear_transcription_buffer s2
    let r1 := start_recording s3
    let r2 := start_playback r1.1
    (true, r2.1,
     [Ev.send OutMsg.clearInputBuffer] ++ r1.2 ++ r2.2 ++ [Ev.startSendLoop])

/-- One invocation of the completion watcher's `check_buffer`
(`RealtimeAIClient._check_audio_completion`): returns silently when the turn
is inactive or already ending; ends the conversation when both the playback
accumulator is empty and the response is finished; otherwise reschedules
itself after 0.1 s. -/
def check_buffer (s : SysState) : SysState × List Ev :=
  if !s.conversation_active || s.conversation_ending then (s, [])
  else
    let buffer_empty := s.audio_buffer.isEmpty
    let response_done := s.response_finished
    if buffer_empty && response_done then end_conversation s
    else (s, [Ev.timerRecheck (1 / 10)])

/-- `RealtimeAIClient._check_audio_completion` runs one `check_buffer`
invocation immediately; later invocations arrive through the rescheduled
timer. -/
def check_audio_completion (s : SysState) : SysState × List Ev :=
  check_buffer s

/-- `needle` occurs at the start of `hay` (Python `str.startswith`, used to
build substring containment). -/
def beginsWith : List Char → List Char → Bool
  | [], _ => true
  | _ :: _, [] => false
  | a :: as, b :: bs => a = b && beginsWith as bs

/-- `needle in hay` for strings (Python substring containment). -/
def containsSub (needle : List Char) : List Char → Bool
  | [] => beginsWith needle []
  | c :: t => beginsWith needle (c :: t) || containsSub needle t

/-- Python `str.lower` restricted to the ASCII range, which covers the
messages the source compares against. -/
def strLower (s : List Char) : List Char := s.map Char.toLower

/-- The substring the source uses to recognize the expected
cancellation-race error. -/
def cancellationPhrase : List Char := "cancellation failed".toList

/-- The `delta` field of an inbound audio-chunk event: absent or empty, a
base64 payload whose decoding raises, or a payload decoding to samples. -/
inductive DeltaField where
  | absent
  | bad
  | good (samples : List Int)
  deriving DecidableEq

/-- Inbound events, one constructor per `event_type` the handler branches
on (events falling through every branch are ignored by the handler). -/
inductive InEvent where
  | sessionCreated
  | sessionUpdated
  | speechStarted
  | speechStopped
  | responseCreated
  | audioDelta (d : DeltaField)
  | outputAudioDelta (d : DeltaField)
  | transcriptDelta
  | transcriptDone (t : List Char)
  | inputTranscriptDone (t : List Char)
  | responseDone
  | errorEvent (msg : List Char)
  | unknownEvent
  deriving DecidableEq

/-- An inbound websocket message: either text that fails JSON parsing (the
`json.loads` call raises) or a parsed event. -/
inductive InMsg where
  | malformed
  | parsed (e : InEvent)
  deriving DecidableEq

/-- The body of `RealtimeAIClient._on_message` before its outer
`try/except`: an `Except.error` result models an exception escaping the body
(only malformed JSON does; a base64 decode failure is caught by the inner
`try` of the audio-delta branches, which logs and drops the chunk). -/
def on_message_core (m : InMsg) (s : SysState) : Except Unit (SysState × List Ev) :=
  match m with
  | InMsg.malformed => Except.error ()
  | InMsg.parsed e =>
    Except.ok <|
      match e with
      | InEvent.sessionCreated => (s, [])
      | InEvent.sessionUpdated => (s, [])
      | InEvent.speechStarted => (s, [Ev.overlay Status.listening])
      | InEvent.speechStopped => (s, [Ev.overlay Status.processing])
      | InEvent.responseCreated => stop_recording s
      | InEvent.audioDelta d =>
        match d with
        | DeltaField.absent => (s, [])
        | DeltaField.bad => (s, [Ev.logError])
        | DeltaField.good smp =>
          (play_audio_data smp s, [Ev.overlay Status.speaking])
      | InEvent.outputAudioDelta d =>
        match d with
        | DeltaField.absent => (s, [])
        | DeltaField.bad => (s, [Ev.logError])
        | DeltaField.good smp =>
          (play_audio_data smp s, [Ev.overlay Status.speaking])
      | InEvent.transcriptDelta => (s, [])
      | InEvent.transcriptDone _ => (s, [])
      | InEvent.inputTranscriptDone _ => (s, [])
      | InEvent.responseDone =>
        let s1 := { s with response_finished := true }
        if !s1.conversation_ending && s1.conversation_active then
          check_audio_completion s1
        else (s1, [])
      | InEvent.errorEvent msg =>
        if containsSub cancellationPhrase (strLower msg) then (s, [])
        else
          (s, [Ev.overlay Status.errorStatus] ++
            (if !s.conversation_ending then [Ev.timerEndConv 2] else []))
      | InEvent.unknownEvent => (s, [])

/-- `RealtimeAIClient._on_message`: the body wrapped in the outer
`try/except`, which logs the exception and returns normally. -/
def on_message (m : InMsg) (s : SysState) : SysState × List Ev :=
  match on_message_core m s with
  | Except.ok r => r
  | Except.error _ => (s, [Ev.logError])

/-- The connect wait loop (`while not self.connected and time.time() -
start_time < timeout: time.sleep(0.1)` followed by the final `connected`
check), abstracted over the tick (0.1 s poll) at which the `on_open` callback
has fired: returns whether the link came up and the number of ticks waited. -/
def waitForConnection (conn : Nat → Bool) : Nat → Nat → Bool × Nat
  | 0, t => (conn t, t)
  | fuel + 1, t => if conn t then (true, t) else waitForConnection conn fuel (t + 1)

/-- The fixed connect timeout: 10 seconds of 0.1-second polls. -/
def connectTimeoutTicks : Nat := 100

/-- `RealtimeAIClient.connect`: opens the websocket once, waits (bounded) for
the connection flag, and returns `True` on success or `False` after the
timeout exception is caught (no retry).  Also returns the number of poll
ticks waited and the emitted events. -/
def connect (conn : Nat → Bool) (s : SysState) : Bool × SysState × Nat × List Ev :=
  let w := waitForConnection conn connectTimeoutTicks 0
  if w.1 then (true, { s with connected := true }, w.2, [Ev.openWebSocket])
  else (false, s, w.2, [Ev.openWebSocket])

/-- The three instruction fields of `SettingsManager` relevant to
`get_combined_instructions` (a missing key and an empty string are both falsy
in the source; both are modelled by the empty string). -/
structure Settings where
  ai_context : List Char
  ai_personality : List Char
  custom_instructions : List Char
  deriving DecidableEq

/-- `SettingsManager.get_combined_instructions`: collects the truthy fields
in order and joins them with `" ".join`. -/
def get_combined_instructions (st : Settings) : List Char :=
  let parts :=
    (if st.ai_context.isEmpty then [] else [st.ai_context]) ++
    (if st.ai_personality.isEmpty then [] else [st.ai_personality]) ++
    (if st.custom_instructions.isEmpty then [] else [st.custom_instructions])
  List.intercalate [' '] parts

/-- The combined-instructions string as the specification describes it: the
three fields joined with single spaces, an empty field contributing
nothing. -/
def specCombinedInstructions (st : Settings) : List Char :=
  List.intercalate [' ']
    (([st.ai_context, st.ai_personality, st.custom_instructions]).filter
      (fun p => !p.isEmpty))

/-- `SettingsManager.set_setting` for the `ai_context` key. -/
def set_ai_context (st : Settings) (v : List Char) : Settings :=
  { st with ai_context := v }

/-- `SettingsManager.set_setting` for the `ai_personality` key. -/
def set_ai_personality (st : Settings) (v : List Char) : Settings :=
  { st with ai_personality := v }

/-- `SettingsManager.set_setting` for the `custom_instructions` key. -/
def set_custom_instructions (st : Settings) (v : List Char) : Settings :=
  { st with custom_instructions := v }

/-- Playback operations: a network-context enqueue or a hardware-callback
pull of a given frame count. -/
inductive PbOp where
  | enq (chunk : List Int)
  | pull (frames : Nat)

/-- Run a sequence of playback operations, concatenating everything the
hardware callback emits. -/
def runPb : List PbOp → SysState → List ℚ × SysState
  | [], s => ([], s)
  | PbOp.enq c :: ops, s => runPb ops (play_audio_data c s)
  | PbOp.pull f :: ops, s =>
    let r := audio_callback s f
    let r2 := runPb ops r.2
    (r.1 ++ r2.1, r2.2)

/-- The two end-of-turn entry points. -/
inductive EndCall where
  | endConv
  | cancel
  deriving DecidableEq

/-- Dispatch one end-of-turn call. -/
def runEnd : EndCall → SysState → SysState × List Ev
  | EndCall.endConv, s => end_conversation s
  | EndCall.cancel, s => cancel_conversation s

/-- Run a sequence of end-of-turn calls, collecting all events. -/
def runEnds : List EndCall → SysState → SysState × List Ev
  | [], s => (s, [])
  | c :: cs, s =>
    let r := runEnd c s
    let r2 := runEnds cs r.1
    (r2.1, r.2 ++ r2.2)

/-- A concrete mid-turn state used by concrete instances below: connected,
turn active, recording stopped (model speaking), playback running. -/
def sTurn : SysState :=
  { recording := false, playing := true, mic_ok := true,
    input_queue := [], output_queue := [], audio_buffer := [],
    response_finished := false, transcription_buffer := [],
    connected := true, conversation_active := true,
    conversation_ending := false, conversation_in_progress := true }

end Pai

namespace Pai

/-- All samples pending for playback: accumulator contents first, then the
queued chunks, in order. -/
def pendingSamples (s : SysState) : List ℚ :=
  s.audio_buffer ++ queuedSamples s.output_queue

/-- The emission/remainder computation of the playback callback, at the list
level (proof artifact used to factor the case analysis). -/
def audOut (buf : List ℚ) (f : Nat) : List ℚ × List ℚ :=
  if f ≤ buf.length then (buf.take f, buf.drop f)
  else if 0 < buf.length then
    (buf ++ List.replicate (f - buf.length) 0, [])
  else (List.replicate f 0, buf)

lemma audio_callback_split (s : SysState) (f : Nat) :
    audio_callback s f =
      ((audOut (pendingSamples s) f).1,
       { s with output_queue := [],
                audio_buffer := (audOut (pendingSamples s) f).2 }) := by
  simp only [audio_callback, audOut, pendingSamples]
  split_ifs <;> rfl

lemma audOut_eq (buf : List ℚ) (f : Nat) :
    audOut buf f =
      (buf.take f ++ List.replicate (f - buf.length) 0, buf.drop f) := by
  unfold audOut
  split_ifs with h1 h2
  · simp [Nat.sub_eq_zero_of_le h1]
  · push_neg at h1
    simp [List.take_of_length_le h1.le, List.drop_eq_nil_of_le h1.le]
  · have hnil : buf = [] := List.length_eq_zero.mp (Nat.le_zero.mp (not_lt.mp h2))
    subst hnil
    simp

lemma audio_callback_eq (s : SysState) (f : Nat) :
    audio_callback s f =
      (List.take f (pendingSamples s) ++
         List.replicate (f - (pendingSamples s).length) 0,
       { s with output_queue := [],
                audio_buffer := List.drop f (pendingSamples s) }) := by
  rw [audio_callback_split, audOut_eq]

lemma queuedSamples_nil : queuedSamples [] = [] := rfl

lemma pendingSamples_callback (s : SysState) (f : Nat) :
    pendingSamples (audio_callback s f).2 =
      List.drop f (pendingSamples s) := by
  rw [audio_callback_eq]
  simp [pendingSamples, queuedSamples_nil]

lemma runPb_pulls (pulls : List Nat) : ∀ s : SysState,
    (runPb (pulls.map PbOp.pull) s).1 =
        List.take pulls.sum (pendingSamples s) ++
          List.replicate (pulls.sum - (pendingSamples s).length) 0
      ∧ pendingSamples (runPb (pulls.map PbOp.pull) s).2 =
          List.drop pulls.sum (pendingSamples s) := by
  induction pulls with
  | nil => intro s; simp [runPb]
  | cons f pulls ih =>
    intro s
    have hcb := audio_callback_eq s f
    have hpend := pendingSamples_callback s f
    obtain ⟨ih1, ih2⟩ := ih (audio_callback s f).2
    constructor
    · show (audio_callback s f).1 ++ (runPb (pulls.map PbOp.pull) _).1 = _
      rw [ih1, hpend, hcb]
      simp only [List.sum_cons, List.length_drop]
      by_cases h1 : f ≤ (pendingSamples s).length
      · have harith : pulls.sum - ((pendingSamples s).length - f) =
            f + pulls.sum - (pendingSamples s).length := by omega
        rw [Nat.sub_eq_zero_of_le h1, List.replicate_zero, List.append_nil,
          harith, List.take_add, List.append_assoc]
      · push_neg at h1
        have hc1 : pulls.sum - ((pendingSamples s).length - f) = pulls.sum := by
          omega
        have hc2 : f - (pendingSamples s).length + pulls.sum =
            f + pulls.sum - (pendingSamples s).length := by omega
        rw [List.take_of_length_le h1.le, List.drop_eq_nil_of_le h1.le,
          List.take_nil, List.nil_append, hc1,
          List.take_of_length_le
            (show (pendingSamples s).length ≤ f + pulls.sum by omega),
          List.append_assoc, ← List.replicate_add, hc2]
    · show pendingSamples (runPb (pulls.map PbOp.pull) _).2 = _
      rw [ih2, hpend, List.drop_drop, List.sum_cons]

lemma runPb_enqs (chunks : List (List Int)) : ∀ s : SysState,
    runPb (chunks.map PbOp.enq) s =
      ([], { s with output_queue := s.output_queue ++ chunks }) := by
  induction chunks with
  | nil => intro s; simp [runPb]
  | cons c chunks ih =>
    intro s
    simp [runPb, play_audio_data, ih]

lemma runPb_append (l1 l2 : List PbOp) : ∀ s : SysState,
    runPb (l1 ++ l2) s =
      ((runPb l1 s).1 ++ (runPb l2 (runPb l1 s).2).1,
       (runPb l2 (runPb l1 s).2).2) := by
  induction l1 with
  | nil => intro s; simp [runPb]
  | cons op l1 ih =>
    intro s
    cases op with
    | enq c => simp [runPb, ih]
    | pull f => simp [runPb, ih, List.append_assoc]

set_option maxRecDepth 4096 in
/-- C1 (amended).  Part 1: when every enqueue precedes the pulls, the
emitted stream is exactly the concatenation of the enqueued chunks in enqueue
order, truncated to the total pulled frame count and padded with trailing
zeros if the pulls outrun supply, and the unconsumed remainder is exactly
what stays pending.  Part 2: under arbitrary interleaving, each individual
hardware-callback pull emits the next pending samples in enqueue order,
padded with trailing zeros within that pull when it outruns supply (so no
sample is ever reordered, dropped or duplicated).  Part 3: enqueueing one
480-sample chunk and then pulling 1024 frames emits the 480 real samples
followed by 544 zeros and leaves the accumulator empty. -/
theorem claim1_playback_ordering :
    (∀ (chunks : List (List Int)) (pulls : List Nat) (s : SysState),
      (runPb (chunks.map PbOp.enq ++ pulls.map PbOp.pull)
          { s with audio_buffer := [], output_queue := [] }).1 =
        List.take pulls.sum (queuedSamples chunks) ++
          List.replicate (pulls.sum - (queuedSamples chunks).length) 0
      ∧ pendingSamples (runPb (chunks.map PbOp.enq ++ pulls.map PbOp.pull)
          { s with audio_buffer := [], output_queue := [] }).2 =
        List.drop pulls.sum (queuedSamples chunks))
  ∧ (∀ (s : SysState) (f : Nat),
      audio_callback s f =
        (List.take f (pendingSamples s) ++
           List.replicate (f - (pendingSamples s).length) 0,
         { s with output_queue := [],
                  audio_buffer := List.drop f (pendingSamples s) }))
  ∧ (∀ (c : List Int) (s : SysState), c.length = 480 →
      runPb [PbOp.enq c, PbOp.pull 1024]
          { s with audio_buffer := [], output_queue := [] } =
        (decodedChunk c ++ List.replicate 544 0,
         { s with audio_buffer := [], output_queue := [] })) := by
  refine ⟨fun chunks pulls s => ?_, audio_callback_eq, fun c s hc => ?_⟩
  · have henq := runPb_enqs chunks { s with audio_buffer := [], output_queue := [] }
    have hpend : pendingSamples (runPb (chunks.map PbOp.enq)
        { s with audio_buffer := [], output_queue := [] }).2 =
        queuedSamples chunks := by
      rw [henq]
      simp [pendingSamples]
    obtain ⟨h1, h2⟩ :=
      runPb_pulls pulls (runPb (chunks.map PbOp.enq)
        { s with audio_buffer := [], output_queue := [] }).2
    rw [runPb_append]
    constructor
    · rw [h1, hpend, henq]
      simp [runPb]
    · rw [h2, hpend]
  · have hlen : (decodedChunk c).length = 480 := by
      simp [decodedChunk, hc]
    have hq : queuedSamples [c] = decodedChunk c := by
      simp [queuedSamples]
    simp only [runPb, play_audio_data, audio_callback_eq]
    rw [show (([] : List (List Int)) ++ [c]) = [c] from rfl]
    simp only [pendingSamples, List.nil_append, hq]
    rw [List.take_of_length_le (by rw [hlen]; omega),
      List.drop_eq_nil_of_le (by rw [hlen]; omega), hlen]
    simp

/-- C1 counterexample: with enqueues interleaved between pulls, the emitted
stream does NOT equal the concatenation of the enqueued chunks padded with
trailing zeros.  Enqueue one sample (value 1 after normalization), pull 2
frames (emits the sample plus one pad zero), enqueue another sample, pull 1
frame: the stream is [1, 0, 1], while the concatenation [1, 1] padded to the
3 pulled frames with trailing zeros is [1, 1, 0]. -/
theorem claim1_counterexample :
    (runPb [PbOp.enq [32767], PbOp.pull 2, PbOp.enq [32767], PbOp.pull 1]
        sTurn).1 = [1, 0, 1]
  ∧ queuedSamples [[32767], [32767]] = [1, 1]
  ∧ (runPb [PbOp.enq [32767], PbOp.pull 2, PbOp.enq [32767], PbOp.pull 1]
        sTurn).1 ≠
      List.take 3 (queuedSamples [[32767], [32767]]) ++
        List.replicate (3 - (queuedSamples [[32767], [32767]]).length) 0 := by
  have h1 : int16ToFloat 32767 = 1 := by
    norm_num [int16ToFloat]
  have hq : queuedSamples [[32767], [32767]] = [1, 1] := by
    simp [queuedSamples, decodedChunk, h1]
  have hrun : (runPb [PbOp.enq [32767], PbOp.pull 2, PbOp.enq [32767],
      PbOp.pull 1] sTurn).1 = [1, 0, 1] := by
    simp [runPb, play_audio_data, audio_callback, queuedSamples,
      decodedChunk, h1, sTurn, List.replicate]
  refine ⟨hrun, hq, ?_⟩
  rw [hrun, hq]
  intro hcontra
  simp [List.replicate] at hcontra

/-- Witness for C1: instantiates the 480-sample scenario of
`claim1_playback_ordering` at the concrete chunk of 480 full-scale
samples. -/
theorem claim1_witness :
    (List.replicate 480 (32767 : Int)).length = 480
  ∧ runPb [PbOp.enq (List.replicate 480 (32767 : Int)), PbOp.pull 1024]
        { sTurn with audio_buffer := [], output_queue := [] } =
      (decodedChunk (List.replicate 480 (32767 : Int)) ++
         List.replicate 544 0,
       { sTurn with audio_buffer := [], output_queue := [] }) :=
  ⟨by rw [List.length_replicate],
   claim1_playback_ordering.2.2 (List.replicate 480 (32767 : Int)) sTurn
     (by rw [List.length_replicate])⟩

/-- The state both end-of-turn entry points leave behind when they are
effective. -/
def endedState (s : SysState) : SysState :=
  { s with conversation_ending := true, conversation_active := false,
           conversation_in_progress := false, recording := false,
           playing := false, audio_buffer := [], output_queue := [] }

lemma end_conversation_effective (s : SysState)
    (he : s.conversation_ending = false) :
    end_conversation s =
      (endedState s,
       [Ev.stopRec, Ev.stopPlay, Ev.hideOverlay, Ev.timerEndingReset 1]) := by
  simp [end_conversation, he, stop_recording, stop_playback, endedState]

lemma cancel_conversation_effective (s : SysState)
    (ha : s.conversation_active = true) :
    cancel_conversation s =
      (endedState s,
       [Ev.stopRec, Ev.stopPlay, Ev.send OutMsg.cancelResponse,
        Ev.hideOverlay, Ev.timerEndingReset 1]) := by
  simp [cancel_conversation, ha, stop_recording, stop_playback, endedState]

lemma runEnd_noop (c : EndCall) (s : SysState)
    (ha : s.conversation_active = false)
    (he : s.conversation_ending = true) :
    runEnd c s = (s, []) := by
  cases c with
  | endConv => simp [runEnd, end_conversation, he]
  | cancel => simp [runEnd, cancel_conversation, ha]

lemma runEnds_noop (cs : List EndCall) : ∀ s : SysState,
    s.conversation_active = false → s.conversation_ending = true →
    runEnds cs s = (s, []) := by
  induction cs with
  | nil => intro s _ _; rfl
  | cons c cs ih =>
    intro s ha he
    simp [runEnds, runEnd_noop c s ha he, ih s ha he]

lemma runEnd_effective (c : EndCall) (s : SysState)
    (ha : s.conversation_active = true)
    (he : s.conversation_ending = false) :
    (runEnd c s).1 = endedState s
    ∧ (runEnd c s).2.count Ev.stopRec = 1
    ∧ (runEnd c s).2.count Ev.stopPlay = 1 := by
  cases c with
  | endConv =>
    rw [runEnd, end_conversation_effective s he]
    refine ⟨rfl, ?_, ?_⟩ <;> rfl
  | cancel =>
    rw [runEnd, cancel_conversation_effective s ha]
    refine ⟨rfl, ?_, ?_⟩ <;> rfl

/-- C2: the end-of-turn entry points are idempotent.  From a live turn
(`active = true`, `ending = false`), any non-empty sequence of
`_end_conversation` / `cancel_conversation` calls produces exactly the state
and events of its first call: the conversation state changes exactly once
(to `active = false`, `ending = true`), capture and playback are each
stopped exactly once, and every call after the first is a no-op (the first
caller observes the guards open and flips `ending`; later `_end_conversation`
calls bail on `ending = true`, later `cancel_conversation` calls bail on
`active = false`). -/
theorem claim2_end_turn_idempotent (c : EndCall) (cs : List EndCall)
    (s : SysState) (ha : s.conversation_active = true)
    (he : s.conversation_ending = false) :
    runEnds (c :: cs) s = runEnd c s
    ∧ (runEnds (c :: cs) s).1.conversation_active = false
    ∧ (runEnds (c :: cs) s).1.conversation_ending = true
    ∧ (runEnds (c :: cs) s).2.count Ev.stopRec = 1
    ∧ (runEnds (c :: cs) s).2.count Ev.stopPlay = 1 := by
  obtain ⟨h1, h2, h3⟩ := runEnd_effective c s ha he
  have hrest : runEnds cs (runEnd c s).1 = ((runEnd c s).1, []) := by
    apply runEnds_noop
    · rw [h1]; rfl
    · rw [h1]; rfl
  have hmain : runEnds (c :: cs) s = runEnd c s := by
    simp [runEnds, hrest]
  refine ⟨hmain, ?_, ?_, ?_, ?_⟩ <;> rw [hmain]
  · rw [h1]; rfl
  · rw [h1]; rfl
  · exact h2
  · exact h3

/-- Witness for C2: three calls (cancel, then natural end, then cancel
again) from a live turn behave exactly like the first cancel alone, with one
capture stop and one playback stop. -/
theorem claim2_witness :
    runEnds [EndCall.cancel, EndCall.endConv, EndCall.cancel] sTurn =
      runEnd EndCall.cancel sTurn
    ∧ (runEnds [EndCall.cancel, EndCall.endConv, EndCall.cancel]
        sTurn).1.conversation_active = false
    ∧ (runEnds [EndCall.cancel, EndCall.endConv, EndCall.cancel]
        sTurn).1.conversation_ending = true
    ∧ (runEnds [EndCall.cancel, EndCall.endConv, EndCall.cancel]
        sTurn).2.count Ev.stopRec = 1
    ∧ (runEnds [EndCall.cancel, EndCall.endConv, EndCall.cancel]
        sTurn).2.count Ev.stopPlay = 1 :=
  claim2_end_turn_idempotent EndCall.cancel [EndCall.endConv, EndCall.cancel]
    sTurn rfl rfl

/-- C9: calling `cancel_conversation` with no active conversation is a
complete no-op: the state is unchanged and no side effect occurs (nothing is
stopped, no `response.cancel` is sent, the overlay is not hidden). -/
theorem claim9_cancel_inactive_noop (s : SysState)
    (h : s.conversation_active = false) :
    cancel_conversation s = (s, []) := by
  simp [cancel_conversation, h]

/-- Witness for C9 at a concrete inactive state. -/
theorem claim9_witness :
    cancel_conversation { sTurn with conversation_active := false } =
      ({ sTurn with conversation_active := false }, []) :=
  claim9_cancel_inactive_noop { sTurn with conversation_active := false } rfl

/-- C10: `start_recording` is a no-op when already recording and
`start_playback` is a no-op when already playing: the state is returned
unchanged and no second hardware stream is opened; in particular a redundant
`start_playback` leaves the playback accumulator and the `response_finished`
flag untouched. -/
theorem claim10_redundant_start_noop (s : SysState) :
    (s.recording = true → start_recording s = (s, []))
    ∧ (s.playing = true →
        start_playback s = (s, [])
        ∧ (start_playback s).1.audio_buffer = s.audio_buffer
        ∧ (start_playback s).1.response_finished = s.response_finished) := by
  constructor
  · intro h
    simp [start_recording, h]
  · intro h
    have : start_playback s = (s, []) := by simp [start_playback, h]
    exact ⟨this, by rw [this], by rw [this]⟩

/-- Witness for C10: a redundant `start_recording` and a redundant
`start_playback` at concrete states already capturing/playing. -/
theorem claim10_witness :
    start_recording { sTurn with recording := true } =
      ({ sTurn with recording := true }, [])
    ∧ start_playback sTurn = (sTurn, []) :=
  ⟨(claim10_redundant_start_noop { sTurn with recording := true }).1 rfl,
   ((claim10_redundant_start_noop sTurn).2 rfl).1⟩

lemma check_buffer_noop (s : SysState)
    (h : s.conversation_active = false ∨ s.conversation_ending = true) :
    check_buffer s = (s, []) := by
  rcases h with h | h <;> simp [check_buffer, h]

lemma check_buffer_fire (s : SysState)
    (ha : s.conversation_active = true) (he : s.conversation_ending = false)
    (hb : s.audio_buffer = []) (hr : s.response_finished = true) :
    check_buffer s = end_conversation s := by
  simp [check_buffer, ha, he, hb, hr]

lemma check_buffer_resched (s : SysState)
    (ha : s.conversation_active = true) (he : s.conversation_ending = false)
    (h : ¬(s.audio_buffer = [] ∧ s.response_finished = true)) :
    check_buffer s = (s, [Ev.timerRecheck (1 / 10)]) := by
  by_cases hb : s.audio_buffer = []
  · have hr : s.response_finished = false := by
      cases hr : s.response_finished
      · rfl
      · exact absurd ⟨hb, hr⟩ h
    simp [check_buffer, ha, he, hb, hr]
  · have hbe : s.audio_buffer.isEmpty = false := by
      cases hbe : s.audio_buffer.isEmpty
      · rfl
      · exact absurd (List.isEmpty_iff.mp hbe) hb
    simp [check_buffer, ha, he, hbe]

/-- C3: one invocation of the completion watcher fires `end_turn` (observable
as the capture-stop it performs) exactly when the turn is active, not already
ending, the playback accumulator is empty and the response-finished flag is
set; when the turn is inactive or already ending it is a complete no-op (no
reschedule, no state change); and when the turn is live but only one (or
neither) of the two completion conditions holds it leaves the state unchanged
and merely reschedules itself after 0.1 s. -/
theorem claim3_completion_watcher (s : SysState) :
    (Ev.stopRec ∈ (check_buffer s).2 ↔
      s.conversation_active = true ∧ s.conversation_ending = false ∧
        s.audio_buffer = [] ∧ s.response_finished = true)
    ∧ (s.conversation_active = false ∨ s.conversation_ending = true →
        check_buffer s = (s, []))
    ∧ (s.conversation_active = true → s.conversation_ending = false →
        ¬(s.audio_buffer = [] ∧ s.response_finished = true) →
        check_buffer s = (s, [Ev.timerRecheck (1 / 10)])) := by
  refine ⟨⟨?_, ?_⟩, check_buffer_noop s, check_buffer_resched s⟩
  · intro hmem
    by_cases ha : s.conversation_active = true
    · by_cases he : s.conversation_ending = false
      · by_cases hcond : s.audio_buffer = [] ∧ s.response_finished = true
        · exact ⟨ha, he, hcond.1, hcond.2⟩
        · rw [check_buffer_resched s ha he hcond] at hmem
          simp at hmem
      · have he2 : s.conversation_ending = true := by
          revert he
          cases s.conversation_ending <;> simp
        rw [check_buffer_noop s (Or.inr he2)] at hmem
        simp at hmem
    · have ha2 : s.conversation_active = false := by
        revert ha
        cases s.conversation_active <;> simp
      rw [check_buffer_noop s (Or.inl ha2)] at hmem
      simp at hmem
  · rintro ⟨ha, he, hb, hr⟩
    rw [check_buffer_fire s ha he hb hr, end_conversation_effective s he]
    simp

/-- Witness for C3: at a live turn with both conditions met the watcher
fires (stops capture); with `ending` already set it is a no-op; with a
non-empty accumulator it only reschedules. -/
theorem claim3_witness :
    Ev.stopRec ∈ (check_buffer { sTurn with response_finished := true }).2
    ∧ check_buffer { sTurn with conversation_ending := true } =
        ({ sTurn with conversation_ending := true }, [])
    ∧ check_buffer { sTurn with audio_buffer := [5] } =
        ({ sTurn with audio_buffer := [5] }, [Ev.timerRecheck (1 / 10)]) :=
  ⟨(claim3_completion_watcher { sTurn with response_finished := true }).1.mpr
      ⟨rfl, rfl, rfl, rfl⟩,
   (claim3_completion_watcher { sTurn with conversation_ending := true }).2.1
      (Or.inr rfl),
   (claim3_completion_watcher { sTurn with audio_buffer := [5] }).2.2 rfl rfl
      (by simp)⟩

/-- C4 counterexample: `start_conversation` does NOT always clear the
"response finished" flag when connected.  The flag is only cleared inside
`start_playback`, which returns immediately when playback is already running:
from a connected state with `playing = true` and `response_finished = true`,
the connected branch is taken (`True` is returned) yet `response_finished`
is still `true` afterwards. -/
theorem claim4_counterexample :
    { sTurn with response_finished := true }.connected = true
    ∧ { sTurn with response_finished := true }.playing = true
    ∧ (start_conversation { sTurn with response_finished := true }).1 = true
    ∧ (start_conversation
        { sTurn with response_finished := true }).2.1.response_finished =
          true := by
  refine ⟨rfl, rfl, ?_, ?_⟩ <;>
    simp [start_conversation, clear_transcription_buffer, start_recording,
      start_playback, sTurn]

/-- C4 (amended): `start_conversation` is a no-op returning failure whenever
not connected; when connected it returns success, empties the capture queue,
sends the buffer-clear control message, sets `active := true` and
`ending := false`, leaves capture running (already-recording, or freshly
started when the microphone opens), leaves playback running, and — provided
playback was not already running — clears the "response finished" flag and
the playback accumulator (a redundant start with playback already running
leaves both untouched, see C10). -/
theorem claim4_start_turn (s : SysState) :
    (s.connected = false → start_conversation s = (false, s, []))
    ∧ (s.connected = true →
        (start_conversation s).1 = true
        ∧ (start_conversation s).2.1.input_queue = []
        ∧ Ev.send OutMsg.clearInputBuffer ∈ (start_conversation s).2.2
        ∧ (start_conversation s).2.1.conversation_active = true
        ∧ (start_conversation s).2.1.conversation_ending = false
        ∧ (start_conversation s).2.1.recording = (s.recording || s.mic_ok)
        ∧ (start_conversation s).2.1.playing = true
        ∧ (s.playing = false →
            (start_conversation s).2.1.response_finished = false
            ∧ (start_conversation s).2.1.audio_buffer = [])) := by
  constructor
  · intro h
    simp [start_conversation, h]
  · intro h
    cases hr : s.recording <;> cases hm : s.mic_ok <;> cases hp : s.playing <;>
      simp [start_conversation, clear_transcription_buffer, start_recording,
        start_playback, h, hr, hm, hp]

/-- Witness for C4 (amended): the not-connected branch at a concrete
disconnected state, and the connected branch at a concrete connected idle
state (recording off, playback off, microphone available). -/
theorem claim4_witness :
    start_conversation { sTurn with connected := false } =
      (false, { sTurn with connected := false }, [])
    ∧ (start_conversation { sTurn with playing := false }).1 = true
    ∧ (start_conversation { sTurn with playing := false }).2.1.input_queue = []
    ∧ (start_conversation
        { sTurn with playing := false }).2.1.response_finished = false :=
  ⟨(claim4_start_turn { sTurn with connected := false }).1 rfl,
   ((claim4_start_turn { sTurn with playing := false }).2 rfl).1,
   ((claim4_start_turn { sTurn with playing := false }).2 rfl).2.1,
   (((claim4_start_turn { sTurn with playing := false }).2 rfl).2.2.2.2.2.2.2
      rfl).1⟩

lemma beginsWith_iff (n : List Char) : ∀ h : List Char,
    beginsWith n h = true ↔ ∃ t, h = n ++ t := by
  induction n with
  | nil =>
    intro h
    simp [beginsWith]
  | cons a as ih =>
    intro h
    cases h with
    | nil =>
      simp [beginsWith]
    | cons b bs =>
      simp only [beginsWith, Bool.and_eq_true, decide_eq_true_eq, ih bs,
        List.cons_append, List.cons.injEq]
      constructor
      · rintro ⟨hab, t, ht⟩
        exact ⟨t, hab.symm, ht⟩
      · rintro ⟨t, hba, ht⟩
        exact ⟨hba.symm, t, ht⟩

lemma containsSub_iff (n : List Char) : ∀ h : List Char,
    containsSub n h = true ↔ ∃ a b, h = a ++ n ++ b := by
  intro h
  induction h with
  | nil =>
    simp only [containsSub, beginsWith_iff]
    constructor
    · rintro ⟨t, ht⟩
      exact ⟨[], t, by simpa using ht⟩
    · rintro ⟨a, b, hab⟩
      have := hab.symm
      rw [List.append_assoc] at this
      rcases List.append_eq_nil.mp this with ⟨ha, hnb⟩
      rcases List.append_eq_nil.mp hnb with ⟨hn, hb⟩
      exact ⟨[], by simp [hn]⟩
  | cons c t ih =>
    simp only [containsSub, Bool.or_eq_true, beginsWith_iff, ih]
    constructor
    · rintro (⟨tl, htl⟩ | ⟨a, b, hab⟩)
      · exact ⟨[], tl, by simpa using htl⟩
      · exact ⟨c :: a, b, by simp [hab]⟩
    · rintro ⟨a, b, hab⟩
      cases a with
      | nil =>
        exact Or.inl ⟨b, by simpa using hab⟩
      | cons x xs =>
        simp only [List.cons_append, List.cons.injEq] at hab
        exact Or.inr ⟨xs, b, hab.2⟩

lemma cancellationPhrase_lower :
    strLower cancellationPhrase = cancellationPhrase := by decide

lemma strLower_append (a b : List Char) :
    strLower (a ++ b) = strLower a ++ strLower b := List.map_append _ a b

lemma lower_keeps_phrase (msg : List Char)
    (h : ∃ a b, msg = a ++ cancellationPhrase ++ b) :
    containsSub cancellationPhrase (strLower msg) = true := by
  obtain ⟨a, b, hab⟩ := h
  rw [containsSub_iff]
  refine ⟨strLower a, strLower b, ?_⟩
  rw [hab, strLower_append, strLower_append, cancellationPhrase_lower]

/-- C5 counterexample: the error message "CANCELLATION FAILED" does not
contain the substring "cancellation failed" (containment is case-sensitive),
and it arrives while `ending = false`, yet the handler schedules no delayed
end-of-turn (it returns with no effect at all), because the source matches
the substring against the lowercased message. -/
theorem claim5_counterexample :
    containsSub cancellationPhrase ("CANCELLATION FAILED".toList) = false
    ∧ sTurn.conversation_ending = false
    ∧ on_message (InMsg.parsed (InEvent.errorEvent
        ("CANCELLATION FAILED".toList))) sTurn = (sTurn, []) := by
  refine ⟨by decide, rfl, by decide⟩

/-- C5 (amended): the inbound error handler partitions on case-insensitive
containment of "cancellation failed" in the message.  (1) A message that
literally contains the substring is ignored: nothing is reported and no
delayed end is scheduled.  (2) More generally, whenever the lowercased
message contains the substring the event is ignored.  (3) When the lowercased
message does not contain it and `ending = false`, the error is reported and a
delayed `end_turn` is scheduled with the fixed 2-second delay.  (4) When the
turn is already ending, the error is reported but no end is scheduled.
(5) The scheduled `_end_conversation` is a no-op if the turn has already
ended when the timer fires (the `ending` guard resolves the race). -/
theorem claim5_error_filter (msg : List Char) (s : SysState) :
    ((∃ a b, msg = a ++ cancellationPhrase ++ b) →
      on_message (InMsg.parsed (InEvent.errorEvent msg)) s = (s, []))
    ∧ (containsSub cancellationPhrase (strLower msg) = true →
        on_message (InMsg.parsed (InEvent.errorEvent msg)) s = (s, []))
    ∧ (containsSub cancellationPhrase (strLower msg) = false →
        s.conversation_ending = false →
        on_message (InMsg.parsed (InEvent.errorEvent msg)) s =
          (s, [Ev.overlay Status.errorStatus, Ev.timerEndConv 2]))
    ∧ (containsSub cancellationPhrase (strLower msg) = false →
        s.conversation_ending = true →
        on_message (InMsg.parsed (InEvent.errorEvent msg)) s =
          (s, [Ev.overlay Status.errorStatus]))
    ∧ (∀ s2 : SysState, s2.conversation_ending = true →
        end_conversation s2 = (s2, [])) := by
  refine ⟨?_, ?_, ?_, ?_, ?_⟩
  · intro h
    have hc := lower_keeps_phrase msg h
    simp [on_message, on_message_core, hc]
  · intro hc
    simp [on_message, on_message_core, hc]
  · intro hc he
    simp [on_message, on_message_core, hc, he]
  · intro hc he
    simp [on_message, on_message_core, hc, he]
  · intro s2 he
    simp [end_conversation, he]

/-- Witness for C5: a message literally containing the substring is ignored;
"model overloaded" mid-turn schedules the 2-second delayed end; the delayed
end is a no-op once the turn has already ended. -/
theorem claim5_witness :
    on_message (InMsg.parsed (InEvent.errorEvent
        ("error: cancellation failed late".toList))) sTurn = (sTurn, [])
    ∧ on_message (InMsg.parsed (InEvent.errorEvent
        ("model overloaded".toList))) sTurn =
      (sTurn, [Ev.overlay Status.errorStatus, Ev.timerEndConv 2])
    ∧ end_conversation { sTurn with conversation_ending := true } =
        ({ sTurn with conversation_ending := true }, []) :=
  ⟨(claim5_error_filter ("error: cancellation failed late".toList) sTurn).1
      ⟨"error: ".toList, " late".toList, by decide⟩,
   (claim5_error_filter ("model overloaded".toList) sTurn).2.2.1 (by decide)
      rfl,
   (claim5_error_filter [] sTurn).2.2.2.2
      { sTurn with conversation_ending := true } rfl⟩

/-- C6: the inbound message handler returns normally on every message.
Malformed JSON escapes the body as an exception, is caught by the outer
handler, logged, and leaves the state untouched.  An audio-chunk event (in
either accepted kind spelling) whose base64 payload fails to decode is caught
by the inner handler of its branch: the chunk is dropped (nothing is
enqueued), the failure is logged, and the state — in particular the
conversation flags and the playback queue — is unchanged, so the turn
continues.  In general, any exception escaping the body is absorbed: the
handler returns the untouched state with only a log entry. -/
theorem claim6_handler_total :
    (∀ s : SysState, on_message InMsg.malformed s = (s, [Ev.logError]))
    ∧ (∀ s : SysState,
        on_message (InMsg.parsed (InEvent.audioDelta DeltaField.bad)) s =
          (s, [Ev.logError]))
    ∧ (∀ s : SysState,
        on_message (InMsg.parsed (InEvent.outputAudioDelta DeltaField.bad))
          s = (s, [Ev.logError]))
    ∧ (∀ (m : InMsg) (s : SysState) (e : Unit),
        on_message_core m s = Except.error e →
        on_message m s = (s, [Ev.logError])) := by
  refine ⟨fun s => rfl, fun s => rfl, fun s => rfl, fun m s e h => ?_⟩
  cases m with
  | malformed => rfl
  | parsed ev => simp [on_message_core] at h

/-- Witness for C6: the catch-all branch applied to a malformed message at a
concrete state. -/
theorem claim6_witness :
    on_message InMsg.malformed sTurn = (sTurn, [Ev.logError]) :=
  claim6_handler_total.2.2.2 InMsg.malformed sTurn () rfl

lemma waitForConnection_ticks_le (conn : Nat → Bool) : ∀ fuel t : Nat,
    (waitForConnection conn fuel t).2 ≤ t + fuel := by
  intro fuel
  induction fuel with
  | zero => intro t; simp [waitForConnection]
  | succ fuel ih =>
    intro t
    rw [waitForConnection]
    by_cases h : conn t = true
    · simp [h]
    · have hf : conn t = false := by
        revert h
        cases conn t <;> simp
      have := ih (t + 1)
      simp [hf]
      omega

lemma waitForConnection_all_false (conn : Nat → Bool) : ∀ fuel t : Nat,
    (∀ u, t ≤ u → u ≤ t + fuel → conn u = false) →
    waitForConnection conn fuel t = (false, t + fuel) := by
  intro fuel
  induction fuel with
  | zero =>
    intro t h
    simp [waitForConnection, h t le_rfl (by omega)]
  | succ fuel ih =>
    intro t h
    have h0 : conn t = false := h t le_rfl (by omega)
    have hrec := ih (t + 1) (fun u hu1 hu2 => h u (by omega) (by omega))
    rw [waitForConnection, h0]
    simp only [Bool.false_eq_true, if_false, hrec]
    have : t + 1 + fuel = t + (fuel + 1) := by omega
    rw [this]

/-- C7: `connect` never hangs: the wait loop polls at most the fixed bound
(100 ticks of 0.1 s, the 10-second timeout).  If the link does not come up
within the bound, `connect` catches the timeout failure and surfaces `false`
to its caller with the state untouched; and in every case exactly one
websocket open is attempted — there is no implicit retry. -/
theorem claim7_connect_timeout (conn : Nat → Bool) (s : SysState) :
    (connect conn s).2.2.1 ≤ connectTimeoutTicks
    ∧ ((∀ t, t ≤ connectTimeoutTicks → conn t = false) →
        connect conn s = (false, s, connectTimeoutTicks, [Ev.openWebSocket]))
    ∧ (connect conn s).2.2.2 = [Ev.openWebSocket] := by
  refine ⟨?_, ?_, ?_⟩
  · have h := waitForConnection_ticks_le conn connectTimeoutTicks 0
    rw [connect]
    by_cases hw : (waitForConnection conn connectTimeoutTicks 0).1 = true
    · simpa [hw] using h
    · have hwf : (waitForConnection conn connectTimeoutTicks 0).1 = false := by
        revert hw
        cases (waitForConnection conn connectTimeoutTicks 0).1 <;> simp
      simpa [hwf] using h
  · intro h
    have hw := waitForConnection_all_false conn connectTimeoutTicks 0
      (fun u _ hu2 => h u (by omega))
    rw [connect, hw]
    rfl
  · rw [connect]
    by_cases hw : (waitForConnection conn connectTimeoutTicks 0).1 = true
    · simp [hw]
    · have hwf : (waitForConnection conn connectTimeoutTicks 0).1 = false := by
        revert hw
        cases (waitForConnection conn connectTimeoutTicks 0).1 <;> simp
      simp [hwf]

/-- Witness for C7: against a link that never comes up, `connect` returns
`false` after exactly the 100-tick bound with a single open attempt. -/
theorem claim7_witness :
    connect (fun _ => false) sTurn =
      (false, sTurn, connectTimeoutTicks, [Ev.openWebSocket]) :=
  (claim7_connect_timeout (fun _ => false) sTurn).2.1 (fun _ _ => rfl)

lemma get_combined_instructions_eq (st : Settings) :
    get_combined_instructions st = specCombinedInstructions st := by
  by_cases h1 : st.ai_context.isEmpty <;>
    by_cases h2 : st.ai_personality.isEmpty <;>
      by_cases h3 : st.custom_instructions.isEmpty <;>
        simp [get_combined_instructions, specCombinedInstructions,
          List.filter, h1, h2, h3]

/-- C8: the combined session-instructions string is exactly the context,
personality, and custom-instruction fields joined with single spaces, an
empty field contributing nothing (and introducing no extra space); and it is
recomputed from the current settings on every call: after any field update
through `set_setting`, the next call reflects the new value (the combiner is
a pure function of the current settings record — nothing is cached). -/
theorem claim8_combined_instructions :
    (∀ st : Settings,
      get_combined_instructions st = specCombinedInstructions st)
    ∧ (∀ (st : Settings) (v : List Char),
        get_combined_instructions (set_ai_context st v) =
          specCombinedInstructions (set_ai_context st v))
    ∧ (∀ (st : Settings) (v : List Char),
        get_combined_instructions (set_ai_personality st v) =
          specCombinedInstructions (set_ai_personality st v))
    ∧ (∀ (st : Settings) (v : List Char),
        get_combined_instructions (set_custom_instructions st v) =
          specCombinedInstructions (set_custom_instructions st v)) :=
  ⟨get_combined_instructions_eq,
   fun _ _ => get_combined_instructions_eq _,
   fun _ _ => get_combined_instructions_eq _,
   fun _ _ => get_combined_instructions_eq _⟩
